import Mathlib

/-!
Shallow embedding of the venice_kb / docusynthetic documentation pipeline
(deduplication, merging, page writing, snapshotting, diffing, changelog
writing), translated from the Python sources, together with theorems that
settle the specification claims about it.
-/

set_option maxRecDepth 4096

namespace VeniceKB

/-! ## Python string primitives

These model the exact Python string operations used by the pipeline on the
ASCII text it manipulates: `str.split()` (split on whitespace runs,
dropping empty fields), `" ".join`, `str.lower()` (ASCII case folding via
`Char.toLower`), substring containment (`in`), and `len` (code points,
matching `String.length`). -/

/-- Whitespace characters recognised by Python `str.split()` (ASCII subset). -/
def isPySpace (c : Char) : Bool :=
  c = ' ' || c = '\t' || c = '\n' || c = '\r' || c = '\x0b' || c = '\x0c'

/-- `str.split()` on a list of characters: whitespace runs separate fields,
leading/trailing whitespace dropped. -/
def pySplitChars : List Char → List (List Char)
  | [] => []
  | c :: cs =>
    if isPySpace c then pySplitChars cs
    else
      match pySplitChars cs with
      | [] => [[c]]
      | w :: ws =>
        match cs with
        | [] => [[c]]
        | c' :: _ => if isPySpace c' then [c] :: w :: ws else (c :: w) :: ws

/-- Python `text.split()`. -/
def pySplit (s : String) : List String :=
  (pySplitChars s.data).map (fun cs => String.mk cs)

/-- Python `" ".join(xs)`. -/
def spaceJoin (xs : List String) : String :=
  String.intercalate " " xs

/-- Python `s.lower()` (ASCII case folding; all text handled by the claims
is ASCII). -/
def pyLower (s : String) : String :=
  String.mk (s.data.map Char.toLower)

/-- Python `needle in haystack` on character lists. -/
def charsContains (needle : List Char) : List Char → Bool
  | [] => needle.isEmpty
  | c :: cs => needle.isPrefixOf (c :: cs) || charsContains needle cs

/-- Python `needle in haystack` for strings. -/
def pyIn (needle haystack : String) : Bool :=
  charsContains needle.data haystack.data

/-- `Deduplicator._normalize_text`: collapse whitespace runs to single
spaces, then lowercase. -/
def normalizeText (text : String) : String :=
  pyLower (spaceJoin (pySplit text))

end VeniceKB

namespace SHA256

/-! ## SHA-256

Executable SHA-256 over byte lists, used to embed Python's
`hashlib.sha256(content.encode()).hexdigest()`. Words are `Nat` values
reduced mod `2^32`. -/

/-- UTF-8 encoding of one code point. -/
def utf8Char (n : Nat) : List Nat :=
  if n < 0x80 then [n]
  else if n < 0x800 then [0xc0 + n / 0x40, 0x80 + n % 0x40]
  else if n < 0x10000 then
    [0xe0 + n / 0x1000, 0x80 + n / 0x40 % 0x40, 0x80 + n % 0x40]
  else
    [0xf0 + n / 0x40000, 0x80 + n / 0x1000 % 0x40, 0x80 + n / 0x40 % 0x40,
      0x80 + n % 0x40]

/-- Python `s.encode()`: UTF-8 bytes of a string. -/
def utf8Encode (s : String) : List Nat :=
  s.data.flatMap (fun c => utf8Char c.toNat)

def wmod : Nat := 4294967296

def rotr (n x : Nat) : Nat :=
  ((x >>> n) ||| (x <<< (32 - n))) % wmod

/-- The sixty-four FIPS 180-4 round constants, written in decimal. -/
def K : List Nat :=
  [1116352408, 1899447441, 3049323471, 3921009573, 961987163, 1508970993,
   2453635748, 2870763221, 3624381080, 310598401, 607225278, 1426881987,
   1925078388, 2162078206, 2614888103, 3248222580, 3835390401, 4022224774,
   264347078, 604807628, 770255983, 1249150122, 1555081692, 1996064986,
   2554220882, 2821834349, 2952996808, 3210313671, 3336571891, 3584528711,
   113926993, 338241895, 666307205, 773529912, 1294757372, 1396182291,
   1695183700, 1986661051, 2177026350, 2456956037, 2730485921, 2820302411,
   3259730800, 3345764771, 3516065817, 3600352804, 4094571909, 275423344,
   430227734, 506948616, 659060556, 883997877, 958139571, 1322822218,
   1537002063, 1747873779, 1955562222, 2024104815, 2227730452, 2361852424,
   2428436474, 2756734187, 3204031479, 3329325298]

/-- The eight initial hash words of FIPS 180-4, written in decimal. -/
def H0 : List Nat :=
  [1779033703, 3144134277, 1013904242, 2773480762, 1359893119, 2600822924,
   528734635, 1541459225]

/-- Padding: append `0x80`, zero bytes to 56 mod 64, then the 64-bit
big-endian bit length. -/
def pad (msg : List Nat) : List Nat :=
  let len := msg.length
  let bitLen := 8 * len
  let z := (120 - (len + 1) % 64) % 64
  msg ++ [0x80] ++ List.replicate z 0 ++
    ((List.range 8).map (fun i => bitLen >>> (8 * (7 - i)) % 256))

/-- Split a byte list into 64-byte blocks (fuel-based structural recursion
so that the kernel can evaluate it; the fuel `bs.length` always suffices). -/
def toBlocksGo : Nat → List Nat → List (List Nat)
  | 0, _ => []
  | _ + 1, [] => []
  | fuel + 1, b :: bs => (b :: bs).take 64 :: toBlocksGo fuel ((b :: bs).drop 64)

/-- Split a byte list into 64-byte blocks. -/
def toBlocks (bs : List Nat) : List (List Nat) :=
  toBlocksGo bs.length bs

/-- 16 big-endian 32-bit words of one 64-byte block. -/
def blockWords (b : List Nat) : List Nat :=
  (List.range 16).map (fun i =>
    b.getD (4 * i) 0 * 0x1000000 + b.getD (4 * i + 1) 0 * 0x10000 +
      b.getD (4 * i + 2) 0 * 0x100 + b.getD (4 * i + 3) 0)

def smallSigma0 (x : Nat) : Nat := rotr 7 x ^^^ rotr 18 x ^^^ (x >>> 3)
def smallSigma1 (x : Nat) : Nat := rotr 17 x ^^^ rotr 19 x ^^^ (x >>> 10)
def bigSigma0 (x : Nat) : Nat := rotr 2 x ^^^ rotr 13 x ^^^ rotr 22 x
def bigSigma1 (x : Nat) : Nat := rotr 6 x ^^^ rotr 11 x ^^^ rotr 25 x

/-- Message schedule: extend the 16 block words to 64. -/
def schedule (ws : List Nat) : List Nat :=
  (List.range 48).foldl
    (fun acc i =>
      let w := (smallSigma1 (acc.getD (i + 14) 0) + acc.getD (i + 9) 0 +
        smallSigma0 (acc.getD (i + 1) 0) + acc.getD i 0) % wmod
      acc ++ [w])
    ws

/-- One compression round. -/
def round (st : List Nat) (kw : Nat) : List Nat :=
  match st with
  | [a, b, c, d, e, f, g, h] =>
    let ch := (e &&& f) ^^^ ((e ^^^ 0xffffffff) &&& g)
    let maj := (a &&& b) ^^^ (a &&& c) ^^^ (b &&& c)
    let t1 := (h + bigSigma1 e + ch + kw) % wmod
    let t2 := (bigSigma0 a + maj) % wmod
    [(t1 + t2) % wmod, a, b, c, (d + t1) % wmod, e, f, g]
  | st => st

/-- Compress one block into the running hash state. -/
def compress (hs : List Nat) (block : List Nat) : List Nat :=
  let w := schedule (blockWords block)
  let kw := (List.range 64).map (fun i => (K.getD i 0 + w.getD i 0) % wmod)
  let st := kw.foldl round hs
  (List.range 8).map (fun i => (hs.getD i 0 + st.getD i 0) % wmod)

/-- SHA-256 digest of a byte list, as eight 32-bit words. -/
def digestWords (msg : List Nat) : List Nat :=
  (toBlocks (pad msg)).foldl compress H0

def hexDigit (n : Nat) : Char :=
  if n < 10 then Char.ofNat (48 + n) else Char.ofNat (87 + n)

/-- Lowercase hex of one 32-bit word (8 digits). -/
def wordHex (w : Nat) : List Char :=
  (List.range 8).map (fun i => hexDigit (w >>> (4 * (7 - i)) % 16))

/-- Python `hashlib.sha256(s.encode()).hexdigest()`. -/
def sha256hex (s : String) : String :=
  String.mk ((digestWords (utf8Encode s)).flatMap wordHex)

end SHA256

namespace VeniceKB

/-! ## Deduplicator (`venice_kb/processing/deduplicator.py`)

`Deduplicator` holds `pages`, a Python dict mapping page path to markdown.
A dict is embedded as an association list in insertion order whose keys
are distinct; iteration over `self.pages.items()` is iteration over that
list. -/

/-- `Deduplicator._content_hash`: SHA-256 hex digest of the normalized
content. -/
def contentHash (content : String) : String :=
  SHA256.sha256hex (normalizeText content)

/-- `Deduplicator.deduplicate_exact`: one pass over the pages in insertion
order with the running `seen_hashes` set; a page is kept iff its
normalized-content hash has not been seen earlier. -/
def dedupExactGo : List (String × String) → List String → List (String × String)
  | [], _ => []
  | (p, c) :: rest, seen =>
    if contentHash c ∈ seen then dedupExactGo rest seen
    else (p, c) :: dedupExactGo rest (contentHash c :: seen)

/-- `Deduplicator.deduplicate_exact` on the pages dict. -/
def dedupExact (pages : List (String × String)) : List (String × String) :=
  dedupExactGo pages []

/-- `set(self._normalize_text(content).split())`: the set of
whitespace-split tokens of the normalized text. -/
def wordSet (content : String) : Finset String :=
  (pySplit (normalizeText content)).toFinset

/-- Jaccard similarity `|A∩B| / |A∪B|` (`similarity = intersection / union
if union > 0 else 0`), in exact rational arithmetic (`mkRat i u = i / u`
for `u ≠ 0`). -/
def jaccard (w1 w2 : Finset String) : ℚ :=
  if 0 < (w1 ∪ w2).card then mkRat (w1 ∩ w2).card (w1 ∪ w2).card else 0

/-- Inner loop of `deduplicate_similar`: `for path2 in
paths_to_check[i+1:]`.  Already-removed pages and pairs with an empty word
set are skipped; on similarity ≥ threshold the shorter page (ties: the
later path, `path2`) is added to `pages_to_remove`, with `break` when
`path1` itself is dropped. -/
def simInner (thr : ℚ) (p1 c1 : String) :
    List (String × String) → List String → List String
  | [], removed => removed
  | (p2, c2) :: rest, removed =>
    if p2 ∈ removed then simInner thr p1 c1 rest removed
    else if wordSet c1 = ∅ ∨ wordSet c2 = ∅ then simInner thr p1 c1 rest removed
    else if thr ≤ jaccard (wordSet c1) (wordSet c2) then
      if c2.length ≤ c1.length then simInner thr p1 c1 rest (p2 :: removed)
      else p1 :: removed
    else simInner thr p1 c1 rest removed

/-- Outer loop of `deduplicate_similar`: `for i, path1 in
enumerate(paths_to_check)`, skipping already-removed pages. -/
def simOuter (thr : ℚ) : List (String × String) → List String → List String
  | [], removed => removed
  | (p1, c1) :: rest, removed =>
    if p1 ∈ removed then simOuter thr rest removed
    else simOuter thr rest (simInner thr p1 c1 rest removed)

/-- `Deduplicator.deduplicate_similar`: exact pass, then the similarity
pass, then `unique_pages.pop(path)` for every collected path (which keeps
the remaining pages in insertion order). -/
def dedupSimilar (thr : ℚ) (pages : List (String × String)) :
    List (String × String) :=
  (dedupExact pages).filter
    (fun pc => decide (pc.1 ∉ simOuter thr (dedupExact pages) []))

/-! ## More Python string primitives used by writer, snapshot and differ -/

/-- Python `s.split(sep)` for a one-character separator. -/
def splitOnChar (sep : Char) : List Char → List (List Char)
  | [] => [[]]
  | c :: cs =>
    if c = sep then [] :: splitOnChar sep cs
    else
      match splitOnChar sep cs with
      | [] => [[c]]
      | w :: ws => (c :: w) :: ws

/-- Python `content.split("\n")`. -/
def pyLines (s : String) : List String :=
  (splitOnChar '\n' s.data).map (fun cs => String.mk cs)

/-- Python `s.strip()`. -/
def pyStrip (s : String) : String :=
  String.mk (((s.data.dropWhile isPySpace).reverse.dropWhile isPySpace).reverse)

/-- Python `s.lstrip()`. -/
def pyLstrip (s : String) : String :=
  String.mk (s.data.dropWhile isPySpace)

/-- Split at the first occurrence of `sep` (a nonempty separator),
returning the parts before and after it, or `none` when absent. -/
def splitOnceChars (sep : List Char) : List Char → Option (List Char × List Char)
  | [] => none
  | c :: cs =>
    if sep.isPrefixOf (c :: cs) then some ([], (c :: cs).drop sep.length)
    else
      match splitOnceChars sep cs with
      | none => none
      | some (pre, post) => some (c :: pre, post)

/-- Python `s.replace(pat, rep)` for a nonempty pattern (left-to-right,
non-overlapping); the fuel `s.length` always suffices. -/
def replaceGo (pat rep : List Char) : Nat → List Char → List Char
  | 0, s => s
  | _ + 1, [] => []
  | fuel + 1, c :: cs =>
    if pat.isPrefixOf (c :: cs) then rep ++ replaceGo pat rep fuel ((c :: cs).drop pat.length)
    else c :: replaceGo pat rep fuel cs

/-- Python `s.replace(pat, rep)`. -/
def pyReplace (s pat rep : String) : String :=
  String.mk (replaceGo pat.data rep.data s.data.length s.data)

/-- Python `str.title()` for ASCII text: a letter is upper-cased when the
previous character is not a letter, lower-cased otherwise. -/
def pyTitleChars : Bool → List Char → List Char
  | _, [] => []
  | prevAlpha, c :: cs =>
    let c' := if c.isAlpha then (if prevAlpha then c.toLower else c.toUpper) else c
    c' :: pyTitleChars c.isAlpha cs

/-- Python `s.title()`. -/
def pyTitle (s : String) : String :=
  String.mk (pyTitleChars false s.data)

def digitChar (n : Nat) : Char := Char.ofNat (48 + n)

/-- Decimal digits of `n` (fuel-based; `n` itself always suffices). -/
def natDigits : Nat → Nat → List Char
  | 0, _ => []
  | fuel + 1, n =>
    if n < 10 then [digitChar n]
    else natDigits fuel (n / 10) ++ [digitChar (n % 10)]

/-- Python `str(n)` for a natural number. -/
def natToString (n : Nat) : String :=
  String.mk (natDigits (n + 1) n)

/-! ## Writer (`venice_kb/output/kb_writer.py`) and snapshot
(`venice_kb/diffing/snapshot.py`)

`KBWriter.write_page` hashes the *raw* markdown body, wraps it in a YAML
frontmatter header and writes the file; `SnapshotManager.create_snapshot`
re-reads the written file and records a `PageInfo` whose hash is the
SHA-256 of the *full file text, header included*.  Timestamps
(`datetime.now().isoformat()`) are modelled as opaque strings supplied to
the run. -/

/-- `KBWriter._extract_title` / `SnapshotManager._extract_title`: the
first line starting with `"# "`, stripped; `"Untitled"` otherwise. -/
def extractTitle (content : String) : String :=
  match (pyLines content).find? (fun l => "# ".data.isPrefixOf l.data) with
  | some l => pyStrip (String.mk (l.data.drop 2))
  | none => "Untitled"

/-- `Chunker.count_tokens` without the optional `tiktoken` tokenizer:
`len(text) // 4`. -/
def countTokens (text : String) : Nat :=
  text.length / 4

/-- PyYAML rendering of the `tags` entry (`yaml.dump` with
`default_flow_style=False`): `[]` in flow form when empty, block items
otherwise. -/
def yamlTags (tags : List String) : String :=
  match tags with
  | [] => "tags: []\n"
  | ts => "tags:\n" ++ String.join (ts.map (fun t => "- " ++ t ++ "\n"))

/-- `yaml.dump(frontmatter, default_flow_style=False, sort_keys=False)`
for the mapping built by `KBWriter.write_page`, specialized to the value
shapes the writer produces: plain ASCII scalars are emitted as
`key: value`; the ISO-8601 `last_updated` string is single-quoted (PyYAML
quotes it because unquoted it would resolve as a YAML timestamp); counts
are plain integers.  Any additional metadata keys are appended after
`tags` in insertion order as plain scalars. -/
def yamlFrontmatter (title source lastUpdated hashHex : String)
    (tokenCount : Nat) (tags : List String) (extras : List (String × String)) : String :=
  "title: " ++ title ++ "\n" ++
  "source: " ++ source ++ "\n" ++
  "last_updated: '" ++ lastUpdated ++ "'\n" ++
  "content_hash: " ++ hashHex ++ "\n" ++
  "token_count: " ++ natToString tokenCount ++ "\n" ++
  yamlTags tags ++
  String.join (extras.map (fun kv => kv.1 ++ ": " ++ kv.2 ++ "\n"))

/-- The frontmatter-removal step of `KBWriter._format_with_frontmatter`:
when the content starts with `"---"` and `content.split("---", 2)` has at
least three parts, keep the third part left-stripped. -/
def stripExistingFrontmatter (content : String) : String :=
  if "---".data.isPrefixOf content.data then
    match splitOnceChars "---".data content.data with
    | some (_, rest1) =>
      match splitOnceChars "---".data rest1 with
      | some (_, rest2) => pyLstrip (String.mk rest2)
      | none => content
    | none => content
  else content

/-- `KBWriter.write_page`: the text of the written file
`f"---\n{yaml_str}---\n\n{content}"`, where the frontmatter carries the
SHA-256 of the raw (pre-wrap) markdown and the fallback token count. -/
def writePage (now content : String) (tags : List String)
    (extras : List (String × String)) : String :=
  let h := SHA256.sha256hex content
  let tc := countTokens content
  let title := extractTitle content
  let fm := yamlFrontmatter title "venice-kb-collector" now h tc tags extras
  "---\n" ++ fm ++ "---\n\n" ++ stripExistingFrontmatter content

/-- Modelled from the spec: the `PageInfo` record imported by
`snapshot.py` (and constructed with keywords `path`, `content_hash`,
`token_count`, `title`, `tags`) is defined nowhere in the repository;
its fields follow the spec's page-manifest record
`{hash, token_count, title, tags}` keyed by path. -/
structure PageInfo where
  path : String
  content_hash : String
  token_count : Nat
  title : String
  tags : List String
deriving DecidableEq

/-- The frontmatter block matched by `SnapshotManager._extract_tags`'s
regex `^---\s*\n(.*?)\n---` (specialized to files that open with exactly
`"---\n"`, the shape `KBWriter` writes). -/
def frontmatterBlock (content : String) : Option String :=
  if "---\n".data.isPrefixOf content.data then
    match splitOnceChars "\n---".data (content.data.drop 4) with
    | some (pre, _) => some (String.mk pre)
    | none => none
  else none

/-- `yaml.safe_load` of the frontmatter followed by the `tags` handling of
`SnapshotManager._extract_tags`, specialized to the frontmatter grammar
emitted by `KBWriter`: `tags: []` yields `[]`; a block list yields its
items; a plain scalar is comma-split and stripped; no `tags` line yields
`[]`. -/
def extractTags (content : String) : List String :=
  match frontmatterBlock content with
  | none => []
  | some fm =>
    let ls := pyLines fm
    match ls.find? (fun l => "tags:".data.isPrefixOf l.data) with
    | none => []
    | some l =>
      let rest := pyStrip (String.mk (l.data.drop 5))
      if rest = "[]" then []
      else if rest = "" then
        (((ls.dropWhile (fun l' => ¬ "tags:".data.isPrefixOf l'.data)).tail.takeWhile
          (fun l' => "- ".data.isPrefixOf l'.data)).map
          (fun l' => pyStrip (String.mk (l'.data.drop 2))))
      else (splitOnChar ',' rest.data).map (fun cs => pyStrip (String.mk cs))

/-- The `PageInfo` recorded by `SnapshotManager.create_snapshot` for one
file read back from disk: SHA-256 of the full file text, fallback token
count of the full file text, first-H1 title, frontmatter tags. -/
def snapshotEntryFromFile (relPath fileContent : String) : PageInfo :=
  { path := relPath
    content_hash := SHA256.sha256hex fileContent
    token_count := countTokens fileContent
    title := extractTitle fileContent
    tags := extractTags fileContent }

/-- One page's manifest entry after a full run: `write_page` at clock
reading `now` followed by `create_snapshot` reading the written file. -/
def pipelineEntry (now relPath content : String) (tags : List String) : PageInfo :=
  snapshotEntryFromFile relPath (writePage now content tags [])

/-! ## Differ (`venice_kb/diffing/differ.py` with the models of
`venice_kb/diffing/models.py`) -/

inductive ChangeType
  | added
  | modified
  | removed
  | content_updated
  | metadata_only
deriving DecidableEq

inductive SeverityLevel
  | breaking
  | important
  | informational
  | cosmetic
deriving DecidableEq

/-- `PageMetadata` of `models.py`. -/
structure PageMetadata where
  hash : String
  token_count : Nat
  title : String
  tags : List String
deriving DecidableEq

/-- `KBSnapshot` of `models.py`; the `page_manifest` dict is an
association list in insertion order with distinct keys. -/
structure KBSnapshot where
  snapshot_id : String
  generated_at : String
  source_versions : List (String × String)
  page_manifest : List (String × PageMetadata)
deriving DecidableEq

/-- `ChangeEntry` of `models.py` (`section` is renamed `sectionName`,
`section` being a Lean keyword). -/
structure ChangeEntry where
  change_type : ChangeType
  severity : SeverityLevel
  path : String
  sectionName : String
  title : String
  details : String
  old_hash : Option String
  new_hash : Option String
  old_token_count : Option Nat
  new_token_count : Option Nat
  diff_preview : Option String
deriving DecidableEq

/-- The `stats` dict of `diff_snapshots`. -/
structure DiffStats where
  added : Nat
  removed : Nat
  modified : Nat
  unchanged : Nat
deriving DecidableEq

/-- `DiffReport` of `models.py`. -/
structure DiffReport where
  generated_at : String
  previous_snapshot : String
  current_snapshot : String
  summary : String
  stats : DiffStats
  breaking_changes : List ChangeEntry
  important_changes : List ChangeEntry
  informational_changes : List ChangeEntry
  cosmetic_changes : List ChangeEntry
deriving DecidableEq

/-- `DiffReport.get_all_changes`. -/
def DiffReport.getAllChanges (r : DiffReport) : List ChangeEntry :=
  r.breaking_changes ++ r.important_changes ++ r.informational_changes ++
    r.cosmetic_changes

/-- `SEVERITY_RULES`, in dict insertion order. -/
def SEVERITY_RULES : List (String × SeverityLevel) :=
  [("api-reference/endpoint/", .important),
   ("api-reference/error-codes", .important),
   ("api-reference/rate-limiting", .important),
   ("overview/deprecations", .breaking),
   ("overview/beta-models", .informational),
   ("overview/pricing", .important),
   ("models/", .informational),
   ("guides/", .informational),
   ("overview/privacy", .informational)]

/-- `BREAKING_SIGNALS`. -/
def BREAKING_SIGNALS : List String :=
  ["removed", "deprecated", "no longer", "breaking", "required parameter",
   "schema change", "endpoint removed", "status code changed",
   "authentication changed"]

/-- `classify_severity`: breaking signals in the lower-cased diff text
first, then the first matching path rule, then the change-type default. -/
def classifySeverity (path : String) (ct : ChangeType) (diffText : String) :
    SeverityLevel :=
  if BREAKING_SIGNALS.any (fun s => pyIn s (pyLower diffText)) then .breaking
  else
    match SEVERITY_RULES.find? (fun r => pyIn r.1 path) with
    | some r => r.2
    | none =>
      match ct with
      | .removed => .important
      | .added => .informational
      | _ => .cosmetic

/-- `_path_to_section`. -/
def pathToSection (path : String) : String :=
  let p := pyReplace path ".md" ""
  String.intercalate " > " ((splitOnChar '/' p.data).map (fun seg =>
    pyTitle (pyReplace (pyReplace (String.mk seg) "-" " ") "_" " ")))

/-- Python dict indexing `manifest[path]` for a present key (the first
binding of the association list; the default is never reached for the
keys `diff_snapshots` looks up). -/
def manifestGet (m : List (String × PageMetadata)) (path : String) : PageMetadata :=
  (m.lookup path).getD { hash := "", token_count := 0, title := "", tags := [] }

/-- Absolute token-count change `abs(new - old)` on naturals. -/
def tokenDelta (oldTc newTc : Nat) : Nat :=
  if oldTc ≤ newTc then newTc - oldTc else oldTc - newTc

/-- `added_paths = new_paths - old_paths`.  Python iterates set
differences in unspecified set order; the embedding fixes manifest
insertion order as the representative (none of the per-entry properties
depend on it). -/
def addedPathsOf (oldS newS : KBSnapshot) : List String :=
  (newS.page_manifest.map Prod.fst).filter
    (fun p => decide (p ∉ oldS.page_manifest.map Prod.fst))

/-- `removed_paths = old_paths - new_paths`. -/
def removedPathsOf (oldS newS : KBSnapshot) : List String :=
  (oldS.page_manifest.map Prod.fst).filter
    (fun p => decide (p ∉ newS.page_manifest.map Prod.fst))

/-- `common_paths = old_paths & new_paths`. -/
def commonPathsOf (oldS newS : KBSnapshot) : List String :=
  (oldS.page_manifest.map Prod.fst).filter
    (fun p => decide (p ∈ newS.page_manifest.map Prod.fst))

/-- The `ChangeEntry` built for one added page. -/
def addedEntry (newManifest : List (String × PageMetadata)) (path : String) :
    ChangeEntry :=
  { change_type := ChangeType.added
    severity := classifySeverity path ChangeType.added ""
    path := path
    sectionName := pathToSection path
    title := "New " ++ (manifestGet newManifest path).title
    details := "Added new page: " ++ (manifestGet newManifest path).title
    old_hash := none
    new_hash := some (manifestGet newManifest path).hash
    old_token_count := none
    new_token_count := some (manifestGet newManifest path).token_count
    diff_preview := none }

/-- The `ChangeEntry` built for one removed page. -/
def removedEntry (oldManifest : List (String × PageMetadata)) (path : String) :
    ChangeEntry :=
  { change_type := ChangeType.removed
    severity := classifySeverity path ChangeType.removed ""
    path := path
    sectionName := pathToSection path
    title := "Removed " ++ (manifestGet oldManifest path).title
    details := "Removed page: " ++ (manifestGet oldManifest path).title
    old_hash := some (manifestGet oldManifest path).hash
    new_hash := none
    old_token_count := some (manifestGet oldManifest path).token_count
    new_token_count := none
    diff_preview := none }

/-- The severity assigned to one modified page: `classify_severity` with
the (always empty) diff preview, then the small-token-change downgrade
`|Δ tokens| / max(old_tokens, 1) < 0.05` from informational to
cosmetic. -/
def modifiedSeverity (om nm : PageMetadata) (path : String) : SeverityLevel :=
  if mkRat (tokenDelta om.token_count nm.token_count) (Nat.max om.token_count 1) <
        mkRat 1 20 ∧
      classifySeverity path ChangeType.modified "" = SeverityLevel.informational
  then SeverityLevel.cosmetic
  else classifySeverity path ChangeType.modified ""

/-- The `ChangeEntry` built for one common page when the hashes differ
(`none` when they agree).  `diff_preview` stays `""` — the content is
never loaded — and `"" or None` serializes as `none`. -/
def modifiedEntry? (oldManifest newManifest : List (String × PageMetadata))
    (path : String) : Option ChangeEntry :=
  if (manifestGet oldManifest path).hash = (manifestGet newManifest path).hash then
    none
  else
    some { change_type := ChangeType.modified
           severity := modifiedSeverity (manifestGet oldManifest path)
             (manifestGet newManifest path) path
           path := path
           sectionName := pathToSection path
           title := "Updated " ++ (manifestGet newManifest path).title
           details := "Modified content in " ++ (manifestGet newManifest path).title
           old_hash := some (manifestGet oldManifest path).hash
           new_hash := some (manifestGet newManifest path).hash
           old_token_count := some (manifestGet oldManifest path).token_count
           new_token_count := some (manifestGet newManifest path).token_count
           diff_preview := none }

/-- The `changes` list accumulated by `diff_snapshots`: added, then
removed, then modified entries. -/
def diffChanges (oldS newS : KBSnapshot) : List ChangeEntry :=
  (addedPathsOf oldS newS).map (addedEntry newS.page_manifest) ++
    (removedPathsOf oldS newS).map (removedEntry oldS.page_manifest) ++
    (commonPathsOf oldS newS).filterMap
      (modifiedEntry? oldS.page_manifest newS.page_manifest)

/-- `diff_snapshots`.  The call never loads page content (`kb_dir` is
unused), so every modified entry is classified with an empty
`diff_preview`.  `datetime.now()` is the opaque `now` argument. -/
def diffSnapshots (now : String) (oldS newS : KBSnapshot) : DiffReport :=
  let changes := diffChanges oldS newS
  let breaking := changes.filter (fun c => decide (c.severity = SeverityLevel.breaking))
  let important := changes.filter (fun c => decide (c.severity = SeverityLevel.important))
  let informational :=
    changes.filter (fun c => decide (c.severity = SeverityLevel.informational))
  let cosmetic := changes.filter (fun c => decide (c.severity = SeverityLevel.cosmetic))
  let addedPaths := addedPathsOf oldS newS
  let removedPaths := removedPathsOf oldS newS
  let unchangedCount := ((commonPathsOf oldS newS).filter (fun p =>
    decide ((manifestGet oldS.page_manifest p).hash =
      (manifestGet newS.page_manifest p).hash))).length
  let summaryParts : List String :=
    (if 0 < breaking.length then [natToString breaking.length ++ " breaking change(s)"] else []) ++
    (if 0 < important.length then [natToString important.length ++ " important change(s)"] else []) ++
    (if 0 < addedPaths.length then [natToString addedPaths.length ++ " new page(s)"] else []) ++
    (if 0 < removedPaths.length then [natToString removedPaths.length ++ " removed page(s)"] else [])
  { generated_at := now
    previous_snapshot := oldS.snapshot_id
    current_snapshot := newS.snapshot_id
    summary := if summaryParts.isEmpty then "No significant changes"
               else String.intercalate ", " summaryParts
    stats := { added := addedPaths.length
               removed := removedPaths.length
               modified := ((commonPathsOf oldS newS).filterMap
                 (modifiedEntry? oldS.page_manifest newS.page_manifest)).length
               unchanged := unchangedCount }
    breaking_changes := breaking
    important_changes := important
    informational_changes := informational
    cosmetic_changes := cosmetic }

/-! ## Changelog writer (`venice_kb/diffing/changelog_writer.py`)

`ChangelogWriter._format_report`'s first statement evaluates
`report.new_snapshot_time`, but the `DiffReport` model of `models.py` has
no such field (nor `changes`; `ChangeEntry` has no `description`): in
Python this raises `AttributeError`.  The embedding surfaces the raised
exception as `Except.error`. -/

/-- `ChangelogWriter._format_report`: aborts at once on the missing
`new_snapshot_time` attribute. -/
def formatReport (_report : DiffReport) : Except String String :=
  .error "AttributeError: 'DiffReport' object has no attribute 'new_snapshot_time'"

/-- `ChangelogWriter._generate_markdown`: header lines, then one
`_format_report` per report, joined with newlines; any raised exception
propagates. -/
def generateMarkdown (reports : List DiffReport) : Except String String := do
  let bodies ← reports.mapM formatReport
  pure (String.intercalate "\n"
    (["# Venice AI Documentation Changelog\n",
      "This changelog tracks changes to the Venice AI API documentation knowledge base.\n"] ++
      bodies))

/-- `ChangelogWriter.write_changelog`: generate and write the markdown
first, then the JSON payload (the list of reports `model_dump`ed); the
result models the pair of files written.  A raised exception aborts the
whole call before any JSON is emitted. -/
def writeChangelog (reports : List DiffReport) :
    Except String (String × List DiffReport) := do
  let md ← generateMarkdown reports
  pure (md, reports)

/-! ## Merger (`venice_kb/processing/merger.py`) -/

def placeholderOpen : List Char := "<!-- PLACEHOLDER: ".data

/-- A match of the regex `<!-- PLACEHOLDER: ([^>]+) -->` starting exactly
at `cs`: the group is the nonempty run of non-`'>'` characters after the
opening text, which must end with `" --"` immediately before a `'>'`.
Returns the remainder after the match. -/
def matchPlaceholderAt (cs : List Char) : Option (List Char) :=
  if placeholderOpen.isPrefixOf cs then
    let rest := cs.drop placeholderOpen.length
    let pre := rest.takeWhile (fun c => c ≠ '>')
    match rest.drop pre.length with
    | '>' :: tail =>
      if 4 ≤ pre.length ∧ " --".data.isSuffixOf pre then some tail else none
    | _ => none
  else none

/-- `re.sub` for the placeholder pattern: scan left to right, replacing
each non-overlapping match with `replacement` and continuing after it
(the fuel `|input|` always suffices). -/
def subPlaceholdersGo (replacement : List Char) : Nat → List Char → List Char
  | 0, s => s
  | _ + 1, [] => []
  | fuel + 1, c :: cs =>
    match matchPlaceholderAt (c :: cs) with
    | some tail => replacement ++ subPlaceholdersGo replacement fuel tail
    | none => c :: subPlaceholdersGo replacement fuel cs

/-- `Merger._inject_scraped_content`.  `htmlConvert` stands for
`HTMLConverter(...).convert()` (an external-library HTML→markdown
conversion); `scrapedContent` is the `scraped_content` dict; `url` is
`page_info.get("url", "")`.  When the URL has no scraped entry the
markdown is returned unchanged; otherwise every placeholder match is
replaced by the converted scraped markdown. -/
def injectScrapedContent (htmlConvert : String → String)
    (scrapedContent : List (String × String)) (url markdown : String) : String :=
  match scrapedContent.lookup url with
  | none => markdown
  | some scrapedHtml =>
    let scrapedMarkdown := htmlConvert scrapedHtml
    String.mk (subPlaceholdersGo scrapedMarkdown.data markdown.data.length markdown.data)

/-! ## docusynthetic `DocumentProcessor.merge_documents` -/

inductive SourceType
  | github_mdx
  | openapi_spec
  | live_site
deriving DecidableEq

/-- `DocumentContent` restricted to the fields `merge_documents` reads
(`metadata.source` and `content_hash`), plus title and content for
identification. -/
structure Document where
  title : String
  source : SourceType
  content : String
  content_hash : String
deriving DecidableEq

/-- The sort key of `merge_documents`: `GITHUB_MDX > OPENAPI_SPEC >
LIVE_SITE`. -/
def sourcePriority : SourceType → Nat
  | .github_mdx => 0
  | .openapi_spec => 1
  | .live_site => 2

/-- Head of Python's stable `sorted(doc_group, key=priority)`: the
earliest document of the group attaining the minimal priority. -/
def firstMinByPriority (d : Document) (ds : List Document) : Document :=
  ds.foldl (fun best x =>
    if sourcePriority x.source < sourcePriority best.source then x else best) d

/-- The keys of the `hash_to_docs` dict in insertion order: content
hashes in order of first appearance. -/
def groupKeys (docs : List Document) : List String :=
  docs.foldl (fun acc d =>
    if d.content_hash ∈ acc then acc else acc ++ [d.content_hash]) []

/-- `DocumentProcessor.merge_documents`: group by `content_hash`
(insertion order), keep per group the head of the stable
priority sort.  The empty-group branch is unreachable (every key comes
from a document). -/
def mergeDocuments (docs : List Document) : List Document :=
  (groupKeys docs).map (fun h =>
    match docs.filter (fun d => decide (d.content_hash = h)) with
    | [] => { title := "", source := .github_mdx, content := "", content_hash := "" }
    | d :: ds => firstMinByPriority d ds)

/-! ## Concrete scenario data -/

/-- S4 scenario, old snapshot: `api-reference/endpoint/chat/completions.md`
with hash `aaa`, 100 tokens. -/
def s4old : KBSnapshot :=
  { snapshot_id := "2026-01-01T00:00:00"
    generated_at := "2026-01-01T00:00:00"
    source_versions := []
    page_manifest :=
      [("api-reference/endpoint/chat/completions.md",
        { hash := "aaa", token_count := 100, title := "Chat Completions", tags := [] })] }

/-- S4 scenario, new snapshot: the same page with a changed hash (its new
content would contain "required parameter `model` added", but
`diff_snapshots` never reads content). -/
def s4new : KBSnapshot :=
  { snapshot_id := "2026-01-02T00:00:00"
    generated_at := "2026-01-02T00:00:00"
    source_versions := []
    page_manifest :=
      [("api-reference/endpoint/chat/completions.md",
        { hash := "bbb", token_count := 120, title := "Chat Completions", tags := [] })] }

/-- S6 scenario, old snapshot: `api-reference/endpoint/audio/speech.md`
present. -/
def s6old : KBSnapshot :=
  { snapshot_id := "2026-01-01T00:00:00"
    generated_at := "2026-01-01T00:00:00"
    source_versions := []
    page_manifest :=
      [("api-reference/endpoint/audio/speech.md",
        { hash := "h1", token_count := 50, title := "Audio Speech", tags := [] })] }

/-- S6 scenario, new snapshot: the page is gone. -/
def s6new : KBSnapshot :=
  { snapshot_id := "2026-01-02T00:00:00"
    generated_at := "2026-01-02T00:00:00"
    source_versions := []
    page_manifest := [] }

/-- A concrete well-formed `DiffReport` (per `models.py`). -/
def r9 : DiffReport :=
  { generated_at := "2026-01-02T00:00:00"
    previous_snapshot := "2026-01-01T00:00:00"
    current_snapshot := "2026-01-02T00:00:00"
    summary := "No significant changes"
    stats := { added := 0, removed := 0, modified := 0, unchanged := 1 }
    breaking_changes := []
    important_changes := []
    informational_changes := []
    cosmetic_changes := [] }

/-- S2 scenario: the page as fetched from the documentation repository. -/
def repoDoc : Document :=
  { title := "Models", source := .github_mdx, content := "# Models", content_hash := "hash1" }

/-- S2 scenario: the same page as scraped from the rendered site
(identical normalized content, hence identical hash). -/
def liveDoc : Document :=
  { title := "Models", source := .live_site, content := "# Models", content_hash := "hash1" }

/-- A snapshot with an empty page manifest (witness data). -/
def s3old : KBSnapshot :=
  { snapshot_id := "s0"
    generated_at := "t0"
    source_versions := []
    page_manifest := [] }

/-- A snapshot with one page (witness data). -/
def s3new : KBSnapshot :=
  { snapshot_id := "s1"
    generated_at := "t1"
    source_versions := []
    page_manifest :=
      [("p1.md", { hash := "h1", token_count := 10, title := "T", tags := [] })] }

end VeniceKB

namespace VeniceKB

/-! ## Helper lemmas -/

theorem charsContains_of_isPrefixOf {n h : List Char}
    (hp : n.isPrefixOf h = true) : charsContains n h = true := by
  cases h with
  | nil =>
    cases n with
    | nil => rfl
    | cons c cs => simp [List.isPrefixOf] at hp
  | cons c cs => simp [charsContains, hp]

theorem charsContains_cons {n cs : List Char} (c : Char)
    (h : charsContains n cs = true) : charsContains n (c :: cs) = true := by
  simp [charsContains, h]

/-- A needle surrounded by arbitrary text is found by `charsContains`. -/
theorem charsContains_append (n a b : List Char) :
    charsContains n (a ++ n ++ b) = true := by
  induction a with
  | nil =>
    simp only [List.nil_append]
    exact charsContains_of_isPrefixOf
      (List.isPrefixOf_iff_prefix.mpr (List.prefix_append n b))
  | cons x a' ih =>
    simpa only [List.cons_append] using charsContains_cons x ih

/-- `pyIn` finds a substring exhibited by an explicit split. -/
theorem pyIn_of_split (n a b : String) : pyIn n (a ++ n ++ b) = true := by
  unfold pyIn
  rw [String.data_append, String.data_append]
  exact charsContains_append n.data a.data b.data

/-- The exact pass only ever keeps a subsequence of its input. -/
theorem dedupExactGo_sublist (l : List (String × String)) :
    ∀ seen, List.Sublist (dedupExactGo l seen) l := by
  induction l with
  | nil => intro seen; simp [dedupExactGo]
  | cons pc rest ih =>
    intro seen
    obtain ⟨p, c⟩ := pc
    simp only [dedupExactGo]
    split
    · exact (ih seen).trans (List.sublist_cons_self (p, c) rest)
    · exact List.Sublist.cons₂ (p, c) (ih (contentHash c :: seen))

/-- Pages kept by the exact pass have hashes outside `seen` and pairwise
distinct hashes. -/
theorem dedupExactGo_hashes (l : List (String × String)) :
    ∀ seen, (∀ pc ∈ dedupExactGo l seen, contentHash pc.2 ∉ seen) ∧
      ((dedupExactGo l seen).map (fun pc => contentHash pc.2)).Nodup := by
  induction l with
  | nil => intro seen; simp [dedupExactGo]
  | cons pc rest ih =>
    intro seen
    obtain ⟨p, c⟩ := pc
    simp only [dedupExactGo]
    split
    · exact ih seen
    · rename_i hno
      constructor
      · intro qd hqd
        rcases List.mem_cons.mp hqd with heq | hmem
        · rw [heq]; exact hno
        · intro hin
          exact (ih (contentHash c :: seen)).1 qd hmem (List.mem_cons_of_mem _ hin)
      · rw [List.map_cons, List.nodup_cons]
        constructor
        · intro hmem
          obtain ⟨qd, hqd, hh⟩ := List.mem_map.mp hmem
          exact (ih (contentHash c :: seen)).1 qd hqd (hh ▸ List.mem_cons_self _ _)
        · exact (ih (contentHash c :: seen)).2

/-- Every input page's hash group has a representative in the exact-pass
output (unless it was already in `seen`). -/
theorem dedupExactGo_exists (l : List (String × String)) :
    ∀ seen p c, (p, c) ∈ l →
      contentHash c ∈ seen ∨
        ∃ qd ∈ dedupExactGo l seen, contentHash qd.2 = contentHash c := by
  induction l with
  | nil => intro seen p c h; cases h
  | cons qd0 rest ih =>
    intro seen p c hmem
    obtain ⟨q0, d0⟩ := qd0
    simp only [dedupExactGo]
    rcases List.mem_cons.mp hmem with heq | hmem'
    · have hcd : c = d0 := congrArg Prod.snd heq
      subst hcd
      split
      · rename_i hin
        exact Or.inl hin
      · exact Or.inr ⟨(q0, c), List.mem_cons_self _ _, rfl⟩
    · split
      · exact ih seen p c hmem'
      · rcases ih (contentHash d0 :: seen) p c hmem' with hin | ⟨qd, hqd, hh⟩
        · rcases List.mem_cons.mp hin with heq | hseen
          · exact Or.inr ⟨(q0, d0), List.mem_cons_self _ _, heq.symm⟩
          · exact Or.inl hseen
        · exact Or.inr ⟨qd, List.mem_cons_of_mem _ hqd, hh⟩

/-- The first page of its hash group survives the exact pass. -/
theorem dedupExactGo_first (l1 : List (String × String)) :
    ∀ seen (l2 : List (String × String)) p c,
      (∀ qd ∈ l1, contentHash qd.2 ≠ contentHash c) →
      contentHash c ∉ seen →
      (p, c) ∈ dedupExactGo (l1 ++ (p, c) :: l2) seen := by
  induction l1 with
  | nil =>
    intro seen l2 p c _ hno
    simp only [List.nil_append, dedupExactGo]
    rw [if_neg hno]
    exact List.mem_cons_self _ _
  | cons qd0 l1' ih =>
    intro seen l2 p c hall hno
    obtain ⟨q0, d0⟩ := qd0
    simp only [List.cons_append, dedupExactGo]
    split
    · exact ih seen l2 p c (fun qd hqd => hall qd (List.mem_cons_of_mem _ hqd)) hno
    · refine List.mem_cons_of_mem _ (ih (contentHash d0 :: seen) l2 p c
        (fun qd hqd => hall qd (List.mem_cons_of_mem _ hqd)) ?_)
      intro hin
      rcases List.mem_cons.mp hin with heq | hseen
      · exact hall (q0, d0) (List.mem_cons_self _ _) heq.symm
      · exact hno hseen

/-- Two distinct members of a list admit an ordered split. -/
theorem mem_mem_split {α : Type} {a b : α} {l : List α}
    (ha : a ∈ l) (hb : b ∈ l) (hne : a ≠ b) :
    ∃ l1 l2, (l = l1 ++ a :: l2 ∧ b ∈ l2) ∨ (l = l1 ++ b :: l2 ∧ a ∈ l2) := by
  induction l with
  | nil => cases ha
  | cons x t ih =>
    rcases List.mem_cons.mp ha with rfl | hat
    · have hbt : b ∈ t := by
        rcases List.mem_cons.mp hb with heq | h
        · exact absurd heq.symm hne
        · exact h
      exact ⟨[], t, Or.inl ⟨rfl, hbt⟩⟩
    · rcases List.mem_cons.mp hb with rfl | hbt
      · exact ⟨[], t, Or.inr ⟨rfl, hat⟩⟩
      · obtain ⟨l1, l2, h⟩ := ih hat hbt
        rcases h with ⟨heq, hm⟩ | ⟨heq, hm⟩
        · exact ⟨x :: l1, l2, Or.inl ⟨by rw [heq]; rfl, hm⟩⟩
        · exact ⟨x :: l1, l2, Or.inr ⟨by rw [heq]; rfl, hm⟩⟩

theorem jaccard_comm (w1 w2 : Finset String) : jaccard w1 w2 = jaccard w2 w1 := by
  unfold jaccard
  rw [Finset.union_comm, Finset.inter_comm]

/-- The similarity inner loop only adds to `pages_to_remove`. -/
theorem simInner_mono (thr : ℚ) (p1 c1 : String) (l : List (String × String)) :
    ∀ removed x, x ∈ removed → x ∈ simInner thr p1 c1 l removed := by
  induction l with
  | nil => intro removed x hx; simpa [simInner] using hx
  | cons qd rest ih =>
    intro removed x hx
    obtain ⟨q, d⟩ := qd
    simp only [simInner]
    split
    · exact ih removed x hx
    · split
      · exact ih removed x hx
      · split
        · split
          · exact ih _ x (List.mem_cons_of_mem _ hx)
          · exact List.mem_cons_of_mem _ hx
        · exact ih removed x hx

/-- The similarity outer loop only adds to `pages_to_remove`. -/
theorem simOuter_mono (thr : ℚ) (l : List (String × String)) :
    ∀ removed x, x ∈ removed → x ∈ simOuter thr l removed := by
  induction l with
  | nil => intro removed x hx; simpa [simOuter] using hx
  | cons qd rest ih =>
    intro removed x hx
    obtain ⟨q, d⟩ := qd
    simp only [simOuter]
    split
    · exact ih removed x hx
    · exact ih _ x (simInner_mono thr q d rest removed x hx)

/-- If the inner loop for `(p1, c1)` leaves both `p1` and a later page
`(p2, c2)` outside `pages_to_remove`, and both word sets are nonempty,
then the pair's Jaccard similarity is below the threshold. -/
theorem simInner_small (thr : ℚ) (p1 c1 : String) (l : List (String × String)) :
    ∀ removed p2 c2, (p2, c2) ∈ l →
      p1 ∉ simInner thr p1 c1 l removed →
      p2 ∉ simInner thr p1 c1 l removed →
      wordSet c1 ≠ ∅ → wordSet c2 ≠ ∅ →
      jaccard (wordSet c1) (wordSet c2) < thr := by
  induction l with
  | nil => intro removed p2 c2 h; cases h
  | cons qd rest ih =>
    intro removed p2 c2 hmem h1 h2 hw1 hw2
    obtain ⟨q, d⟩ := qd
    simp only [simInner] at h1 h2
    rcases List.mem_cons.mp hmem with heq | hmem'
    · have hq2 : p2 = q := congrArg Prod.fst heq
      have hd2 : c2 = d := congrArg Prod.snd heq
      subst hq2; subst hd2
      by_cases hq : p2 ∈ removed
      · rw [if_pos hq] at h2
        exact absurd (simInner_mono thr p1 c1 rest removed p2 hq) h2
      · rw [if_neg hq] at h1 h2
        have hE : ¬(wordSet c1 = ∅ ∨ wordSet c2 = ∅) := by
          intro h; rcases h with h | h
          · exact hw1 h
          · exact hw2 h
        rw [if_neg hE] at h1 h2
        by_cases hJ : thr ≤ jaccard (wordSet c1) (wordSet c2)
        · rw [if_pos hJ] at h1 h2
          by_cases hL : c2.length ≤ c1.length
          · rw [if_pos hL] at h2
            exact absurd
              (simInner_mono thr p1 c1 rest (p2 :: removed) p2 (List.mem_cons_self _ _)) h2
          · rw [if_neg hL] at h1
            exact absurd (List.mem_cons_self _ _) h1
        · exact lt_of_not_le hJ
    · by_cases hq : q ∈ removed
      · rw [if_pos hq] at h1 h2
        exact ih removed p2 c2 hmem' h1 h2 hw1 hw2
      · rw [if_neg hq] at h1 h2
        by_cases hE : wordSet c1 = ∅ ∨ wordSet d = ∅
        · rw [if_pos hE] at h1 h2
          exact ih removed p2 c2 hmem' h1 h2 hw1 hw2
        · rw [if_neg hE] at h1 h2
          by_cases hJ : thr ≤ jaccard (wordSet c1) (wordSet d)
          · rw [if_pos hJ] at h1 h2
            by_cases hL : d.length ≤ c1.length
            · rw [if_pos hL] at h1 h2
              exact ih (q :: removed) p2 c2 hmem' h1 h2 hw1 hw2
            · rw [if_neg hL] at h1
              exact absurd (List.mem_cons_self _ _) h1
          · rw [if_neg hJ] at h1 h2
            exact ih removed p2 c2 hmem' h1 h2 hw1 hw2

/-- If the outer loop leaves two pages (the first occurring before the
second) outside `pages_to_remove`, and both word sets are nonempty, then
their Jaccard similarity is below the threshold. -/
theorem simOuter_small (thr : ℚ) (l1 : List (String × String)) :
    ∀ removed p1 c1 (l2 : List (String × String)) p2 c2,
      (p2, c2) ∈ l2 →
      p1 ∉ simOuter thr (l1 ++ (p1, c1) :: l2) removed →
      p2 ∉ simOuter thr (l1 ++ (p1, c1) :: l2) removed →
      wordSet c1 ≠ ∅ → wordSet c2 ≠ ∅ →
      jaccard (wordSet c1) (wordSet c2) < thr := by
  induction l1 with
  | nil =>
    intro removed p1 c1 l2 p2 c2 hmem h1 h2 hw1 hw2
    simp only [List.nil_append, simOuter] at h1 h2
    by_cases hq : p1 ∈ removed
    · rw [if_pos hq] at h1
      exact absurd (simOuter_mono thr l2 removed p1 hq) h1
    · rw [if_neg hq] at h1 h2
      refine simInner_small thr p1 c1 l2 removed p2 c2 hmem ?_ ?_ hw1 hw2
      · intro hin; exact h1 (simOuter_mono thr l2 _ p1 hin)
      · intro hin; exact h2 (simOuter_mono thr l2 _ p2 hin)
  | cons qd l1' ih =>
    intro removed p1 c1 l2 p2 c2 hmem h1 h2 hw1 hw2
    obtain ⟨q, d⟩ := qd
    simp only [List.cons_append, simOuter] at h1 h2
    by_cases hq : q ∈ removed
    · rw [if_pos hq] at h1 h2
      exact ih removed p1 c1 l2 p2 c2 hmem h1 h2 hw1 hw2
    · rw [if_neg hq] at h1 h2
      exact ih _ p1 c1 l2 p2 c2 hmem h1 h2 hw1 hw2

/-- Grouping a change list by the four severities and concatenating the
groups permutes the list. -/
theorem severity_partition_perm (l : List ChangeEntry) :
    List.Perm
      (l.filter (fun c => decide (c.severity = SeverityLevel.breaking)) ++
        l.filter (fun c => decide (c.severity = SeverityLevel.important)) ++
        l.filter (fun c => decide (c.severity = SeverityLevel.informational)) ++
        l.filter (fun c => decide (c.severity = SeverityLevel.cosmetic))) l := by
  induction l with
  | nil => simp
  | cons c t ih =>
    have hb : (c :: t).filter (fun x => decide (x.severity = SeverityLevel.breaking)) =
        (if c.severity = SeverityLevel.breaking then [c] else []) ++
          t.filter (fun x => decide (x.severity = SeverityLevel.breaking)) := by
      by_cases h : c.severity = SeverityLevel.breaking <;>
        simp [List.filter_cons, h]
    have hi : (c :: t).filter (fun x => decide (x.severity = SeverityLevel.important)) =
        (if c.severity = SeverityLevel.important then [c] else []) ++
          t.filter (fun x => decide (x.severity = SeverityLevel.important)) := by
      by_cases h : c.severity = SeverityLevel.important <;>
        simp [List.filter_cons, h]
    have hn : (c :: t).filter (fun x => decide (x.severity = SeverityLevel.informational)) =
        (if c.severity = SeverityLevel.informational then [c] else []) ++
          t.filter (fun x => decide (x.severity = SeverityLevel.informational)) := by
      by_cases h : c.severity = SeverityLevel.informational <;>
        simp [List.filter_cons, h]
    have hc : (c :: t).filter (fun x => decide (x.severity = SeverityLevel.cosmetic)) =
        (if c.severity = SeverityLevel.cosmetic then [c] else []) ++
          t.filter (fun x => decide (x.severity = SeverityLevel.cosmetic)) := by
      by_cases h : c.severity = SeverityLevel.cosmetic <;>
        simp [List.filter_cons, h]
    rw [hb, hi, hn, hc]
    cases hs : c.severity with
    | breaking =>
      simp only [hs, if_pos rfl, if_neg (by decide : SeverityLevel.breaking ≠ SeverityLevel.important),
        if_neg (by decide : SeverityLevel.breaking ≠ SeverityLevel.informational),
        if_neg (by decide : SeverityLevel.breaking ≠ SeverityLevel.cosmetic),
        if_true, List.nil_append, List.singleton_append, List.cons_append]
      exact List.Perm.cons c (by simpa [List.append_assoc] using ih)
    | important =>
      simp only [hs, if_neg (by decide : SeverityLevel.important ≠ SeverityLevel.breaking),
        if_pos rfl,
        if_neg (by decide : SeverityLevel.important ≠ SeverityLevel.informational),
        if_neg (by decide : SeverityLevel.important ≠ SeverityLevel.cosmetic),
        if_true, List.nil_append, List.singleton_append, List.append_assoc, List.cons_append]
      exact List.Perm.trans List.perm_middle
        (List.Perm.cons c (by simpa [List.append_assoc] using ih))
    | informational =>
      simp only [hs, if_neg (by decide : SeverityLevel.informational ≠ SeverityLevel.breaking),
        if_neg (by decide : SeverityLevel.informational ≠ SeverityLevel.important),
        if_pos rfl,
        if_neg (by decide : SeverityLevel.informational ≠ SeverityLevel.cosmetic),
        if_true, List.nil_append, List.singleton_append, List.append_assoc, List.cons_append]
      exact ((List.Perm.append_left _ List.perm_middle).trans List.perm_middle).trans
        (List.Perm.cons c (by simpa [List.append_assoc] using ih))
    | cosmetic =>
      simp only [hs, if_neg (by decide : SeverityLevel.cosmetic ≠ SeverityLevel.breaking),
        if_neg (by decide : SeverityLevel.cosmetic ≠ SeverityLevel.important),
        if_neg (by decide : SeverityLevel.cosmetic ≠ SeverityLevel.informational),
        if_pos rfl, if_true,
        List.nil_append, List.singleton_append, List.append_assoc, List.cons_append]
      exact (((List.Perm.append_left _ (List.Perm.append_left _ List.perm_middle)).trans
          (List.Perm.append_left _ List.perm_middle)).trans List.perm_middle).trans
        (List.Perm.cons c (by simpa [List.append_assoc] using ih))

/-- The change lists of the report are, concatenated, a permutation of
the accumulated `changes` list. -/
theorem getAllChanges_perm (now : String) (oldS newS : KBSnapshot) :
    List.Perm (diffSnapshots now oldS newS).getAllChanges (diffChanges oldS newS) := by
  unfold diffSnapshots DiffReport.getAllChanges
  exact severity_partition_perm (diffChanges oldS newS)

/-- Every element of `changes` is an added, removed or modified entry for
a path of the corresponding path set. -/
theorem mem_diffChanges {oldS newS : KBSnapshot} {e : ChangeEntry}
    (h : e ∈ diffChanges oldS newS) :
    (∃ p ∈ addedPathsOf oldS newS, e = addedEntry newS.page_manifest p) ∨
    (∃ p ∈ removedPathsOf oldS newS, e = removedEntry oldS.page_manifest p) ∨
    (∃ p ∈ commonPathsOf oldS newS,
      modifiedEntry? oldS.page_manifest newS.page_manifest p = some e) := by
  unfold diffChanges at h
  rcases List.mem_append.mp h with h' | hmod
  · rcases List.mem_append.mp h' with hadd | hrem
    · obtain ⟨p, hp, he⟩ := List.mem_map.mp hadd
      exact Or.inl ⟨p, hp, he.symm⟩
    · obtain ⟨p, hp, he⟩ := List.mem_map.mp hrem
      exact Or.inr (Or.inl ⟨p, hp, he.symm⟩)
  · obtain ⟨p, hp, he⟩ := List.mem_filterMap.mp hmod
    exact Or.inr (Or.inr ⟨p, hp, he⟩)

/-- Fields of a modified entry. -/
theorem modifiedEntry?_eq_some {om nm : List (String × PageMetadata)}
    {path : String} {e : ChangeEntry}
    (h : modifiedEntry? om nm path = some e) :
    e.change_type = ChangeType.modified ∧ e.path = path ∧
      (manifestGet om path).hash ≠ (manifestGet nm path).hash := by
  unfold modifiedEntry? at h
  split at h
  · exact absurd h (by simp)
  · rename_i hne
    have he := Option.some.inj h
    subst he
    exact ⟨rfl, rfl, hne⟩

/-- A path occurring in a duplicate-free list is counted exactly once. -/
theorem countP_eq_one_of_nodup {α : Type} [DecidableEq α] (a : α) :
    ∀ l : List α, l.Nodup → a ∈ l →
      l.countP (fun q => decide (q = a)) = 1 := by
  intro l
  induction l with
  | nil => intro _ h; cases h
  | cons x t ih =>
    intro hnd hmem
    by_cases heq : x = a
    · subst heq
      have hnt : x ∉ t := (List.nodup_cons.mp hnd).1
      have hz : t.countP (fun q => decide (q = x)) = 0 := by
        rw [List.countP_eq_zero]
        intro b hb hpb
        exact hnt (of_decide_eq_true hpb ▸ hb)
      rw [List.countP_cons, hz]
      simp
    · have hmt : a ∈ t := by
        rcases List.mem_cons.mp hmem with h | h
        · exact absurd h.symm heq
        · exact h
      rw [List.countP_cons, ih (List.nodup_cons.mp hnd).2 hmt]
      simp [heq]

/-- With an empty diff preview, any path containing
`api-reference/endpoint/` is classified `important` (the first severity
rule), whatever the change type. -/
theorem classify_endpoint_rule (path : String) (ct : ChangeType)
    (h : pyIn "api-reference/endpoint/" path = true) :
    classifySeverity path ct "" = SeverityLevel.important := by
  unfold classifySeverity
  rw [if_neg (by decide :
    ¬(BREAKING_SIGNALS.any (fun s => pyIn s (pyLower "")) = true))]
  rw [show SEVERITY_RULES =
    ("api-reference/endpoint/", SeverityLevel.important) ::
      SEVERITY_RULES.tail from rfl]
  rw [List.find?_cons_of_pos SEVERITY_RULES.tail
    (show (fun r : String × SeverityLevel => pyIn r.1 path)
        ("api-reference/endpoint/", SeverityLevel.important) = true from h)]

/-- Auxiliary introduction rule for `pyIn` from an explicit split of the
haystack's characters. -/
theorem pyIn_intro {n hay : String} (a b : String)
    (he : hay.data = a.data ++ (n.data ++ b.data)) : pyIn n hay = true := by
  unfold pyIn
  rw [he, ← List.append_assoc]
  exact charsContains_append n.data a.data b.data

/-! ## Claim theorems -/

/-- C1 (amended): the hash recorded in a snapshot's page manifest for a
written page is the SHA-256 of the *full written file* — frontmatter
header included and without any normalization — while the hash embedded in
the written frontmatter is the SHA-256 of the raw pre-wrap markdown (also
un-normalized).  Neither is the SHA-256 of the normalized markdown. -/
theorem snapshot_hash_of_wrapped_file (now relPath content : String)
    (tags : List String) :
    (pipelineEntry now relPath content tags).content_hash =
      SHA256.sha256hex (writePage now content tags []) ∧
    pyIn ("content_hash: " ++ SHA256.sha256hex content)
      (writePage now content tags []) = true := by
  constructor
  · rfl
  · apply pyIn_intro
      ("---\n" ++ "title: " ++ extractTitle content ++ "\n" ++ "source: " ++
        "venice-kb-collector" ++ "\n" ++ "last_updated: '" ++ now ++ "'\n")
      ("\n" ++ "token_count: " ++ natToString (countTokens content) ++ "\n" ++
        yamlTags tags ++
        String.join (([] : List (String × String)).map
          (fun kv => kv.1 ++ ": " ++ kv.2 ++ "\n")) ++
        "---\n\n" ++ stripExistingFrontmatter content)
    simp [writePage, yamlFrontmatter, String.data_append, List.append_assoc]

/-- C1 counterexample: on a concrete page, the hash recorded in the
snapshot manifest differs from the SHA-256 of the normalized markdown. -/
theorem snapshot_hash_not_normalized_cex :
    (pipelineEntry "2026-01-01T00:00:01" "p.md"
        "# Hello World\nSome TEXT here." []).content_hash ≠
      SHA256.sha256hex (normalizeText "# Hello World\nSome TEXT here.") := by
  decide

/-- C2 (amended): one pipeline run's manifest entry is a pure function of
the page content and the observed clock reading, so two runs that observe
the same clock reading produce byte-identical entries; but two runs at
different clock readings embed different `last_updated` lines in the
hashed file, so on a concrete unchanged page the titles, tags and token
counts agree while the per-page hashes differ. -/
theorem pipeline_deterministic_given_clock :
    (∀ (relPath content : String) (tags : List String) (t1 t2 : String),
       t1 = t2 →
       pipelineEntry t1 relPath content tags = pipelineEntry t2 relPath content tags) ∧
    ((pipelineEntry "2026-01-01T00:00:01" "p.md" "# Hello World\nSome TEXT here." []).title =
        (pipelineEntry "2026-01-02T12:34:56" "p.md" "# Hello World\nSome TEXT here." []).title ∧
      (pipelineEntry "2026-01-01T00:00:01" "p.md" "# Hello World\nSome TEXT here." []).tags =
        (pipelineEntry "2026-01-02T12:34:56" "p.md" "# Hello World\nSome TEXT here." []).tags ∧
      (pipelineEntry "2026-01-01T00:00:01" "p.md" "# Hello World\nSome TEXT here." []).token_count =
        (pipelineEntry "2026-01-02T12:34:56" "p.md" "# Hello World\nSome TEXT here." []).token_count ∧
      (pipelineEntry "2026-01-01T00:00:01" "p.md" "# Hello World\nSome TEXT here." []).content_hash ≠
        (pipelineEntry "2026-01-02T12:34:56" "p.md" "# Hello World\nSome TEXT here." []).content_hash) := by
  constructor
  · intro relPath content tags t1 t2 h
    rw [h]
  · exact ⟨by decide, by decide, by decide, by decide⟩

/-- C2 witness. -/
theorem pipeline_deterministic_given_clock_witness :
    ("2026-01-01T00:00:01" : String) = "2026-01-01T00:00:01" ∧
    pipelineEntry "2026-01-01T00:00:01" "p.md" "# Hi\nBody." [] =
      pipelineEntry "2026-01-01T00:00:01" "p.md" "# Hi\nBody." [] :=
  ⟨rfl, pipeline_deterministic_given_clock.1 "p.md" "# Hi\nBody." []
    "2026-01-01T00:00:01" "2026-01-01T00:00:01" rfl⟩

/-- C2 counterexample: two runs on the identical, unchanged page, taken
at different clock readings, produce different manifest entries. -/
theorem pipeline_reruns_differ_cex :
    pipelineEntry "2026-01-01T00:00:01" "p.md" "# Hello World\nSome TEXT here." [] ≠
      pipelineEntry "2026-01-02T12:34:56" "p.md" "# Hello World\nSome TEXT here." [] := by
  decide

/-- C6 (amended): in `Deduplicator.deduplicate_exact` each
normalized-hash group keeps exactly one survivor, namely the *first
occurrence in input (dict insertion) order* — source priority and path
length are never consulted; separately, in docusynthetic's
`merge_documents` the repo (`github_mdx`) entry does outrank the rendered
(`live_site`) entry of the same hash group, as in scenario S2. -/
theorem dedup_exact_first_survivor :
    (∀ (l1 l2 : List (String × String)) (p c : String),
       (∀ qd ∈ l1, contentHash qd.2 ≠ contentHash c) →
       (p, c) ∈ dedupExact (l1 ++ (p, c) :: l2)) ∧
    (∀ (pages : List (String × String)) (p c : String), (p, c) ∈ pages →
       ∃ qd ∈ dedupExact pages, contentHash qd.2 = contentHash c) ∧
    (∀ pages : List (String × String),
       ((dedupExact pages).map (fun pc => contentHash pc.2)).Nodup) ∧
    mergeDocuments [liveDoc, repoDoc] = [repoDoc] := by
  refine ⟨?_, ?_, ?_, ?_⟩
  · intro l1 l2 p c hall
    exact dedupExactGo_first l1 [] l2 p c hall (by simp)
  · intro pages p c hmem
    rcases dedupExactGo_exists pages [] p c hmem with hin | h
    · simp at hin
    · exact h
  · intro pages
    exact (dedupExactGo_hashes pages []).2
  · decide

/-- C6 witness. -/
theorem dedup_exact_first_survivor_witness :
    (∀ qd ∈ ([("x", "aaa")] : List (String × String)),
       contentHash qd.2 ≠ contentHash "bbb") ∧
    ("y", "bbb") ∈ dedupExact [("x", "aaa"), ("y", "bbb")] :=
  ⟨by decide, dedup_exact_first_survivor.1 [("x", "aaa")] [] "y" "bbb" (by decide)⟩

/-- C6 counterexample: two pages with equal normalized hashes where the
first-inserted page has the longer path; the survivor is the first
occurrence, not the shortest path (and no source priority exists in
`deduplicate_exact` at all). -/
theorem dedup_exact_no_priority_cex :
    dedupExact [("z-rendered/very/long/path", "Same Content"), ("a", "same  content")] =
      [("z-rendered/very/long/path", "Same Content")] ∧
    ("a", "same  content") ∉
      dedupExact [("z-rendered/very/long/path", "Same Content"), ("a", "same  content")] := by
  decide

/-- C7 (confirmed): after `deduplicate_similar` (exact pass then the
near-duplicate pass at threshold 0.8 = 4/5) no two distinct surviving
pages share a normalized-content hash, and no two surviving pages with
nonempty token sets have Jaccard similarity ≥ 4/5. -/
theorem dedup_pairwise_dissimilar (pages : List (String × String))
    (p1 c1 p2 c2 : String)
    (h1 : (p1, c1) ∈ dedupSimilar (mkRat 4 5) pages)
    (h2 : (p2, c2) ∈ dedupSimilar (mkRat 4 5) pages)
    (hne : p1 ≠ p2) :
    contentHash c1 ≠ contentHash c2 ∧
    (wordSet c1 ≠ ∅ → wordSet c2 ≠ ∅ →
      jaccard (wordSet c1) (wordSet c2) < mkRat 4 5) := by
  unfold dedupSimilar at h1 h2
  obtain ⟨hm1, hf1⟩ := List.mem_filter.mp h1
  obtain ⟨hm2, hf2⟩ := List.mem_filter.mp h2
  have hp1 : p1 ∉ simOuter (mkRat 4 5) (dedupExact pages) [] := of_decide_eq_true hf1
  have hp2 : p2 ∉ simOuter (mkRat 4 5) (dedupExact pages) [] := of_decide_eq_true hf2
  constructor
  · intro hh
    have heq := List.inj_on_of_nodup_map (dedupExactGo_hashes pages []).2 hm1 hm2 hh
    exact hne (congrArg Prod.fst heq)
  · intro hw1 hw2
    have hpair : ((p1, c1) : String × String) ≠ (p2, c2) := by
      intro h
      exact hne (congrArg Prod.fst h)
    obtain ⟨l1, l2, hcase⟩ := mem_mem_split hm1 hm2 hpair
    rcases hcase with ⟨heq, hmem⟩ | ⟨heq, hmem⟩
    · exact simOuter_small (mkRat 4 5) l1 [] p1 c1 l2 p2 c2 hmem
        (heq ▸ hp1) (heq ▸ hp2) hw1 hw2
    · rw [jaccard_comm]
      exact simOuter_small (mkRat 4 5) l1 [] p2 c2 l2 p1 c1 hmem
        (heq ▸ hp2) (heq ▸ hp1) hw2 hw1

/-- C7 witness. -/
theorem dedup_pairwise_dissimilar_witness :
    (("a", "alpha beta") ∈
        dedupSimilar (mkRat 4 5) [("a", "alpha beta"), ("b", "gamma delta")] ∧
      ("b", "gamma delta") ∈
        dedupSimilar (mkRat 4 5) [("a", "alpha beta"), ("b", "gamma delta")] ∧
      ("a" : String) ≠ "b") ∧
    (contentHash "alpha beta" ≠ contentHash "gamma delta" ∧
      (wordSet "alpha beta" ≠ ∅ → wordSet "gamma delta" ≠ ∅ →
        jaccard (wordSet "alpha beta") (wordSet "gamma delta") < mkRat 4 5)) :=
  ⟨⟨by decide, by decide, by decide⟩,
    dedup_pairwise_dissimilar [("a", "alpha beta"), ("b", "gamma delta")]
      "a" "alpha beta" "b" "gamma delta" (by decide) (by decide) (by decide)⟩

/-- C8 (amended): when the canonical page's URL has a scraped entry,
every placeholder sentinel is replaced by the converted scraped markdown;
but when no scraped content matches the URL, `_inject_scraped_content`
returns the markdown unchanged — the sentinel is left in the output, and
no fallback string is substituted. -/
theorem inject_scraped_missing_url :
    (∀ (conv : String → String) (scraped : List (String × String)) (url md : String),
       scraped.lookup url = none →
       injectScrapedContent conv scraped url md = md) ∧
    injectScrapedContent (fun s => s) [("u", "X")] "u"
      "A <!-- PLACEHOLDER: models-placeholder --> B" = "A X B" := by
  constructor
  · intro conv scraped url md h
    unfold injectScrapedContent
    rw [h]
  · decide

/-- C8 witness. -/
theorem inject_scraped_missing_url_witness :
    (([] : List (String × String)).lookup "https://docs.venice.ai/models" = none) ∧
    injectScrapedContent (fun s => s) [] "https://docs.venice.ai/models"
      "<!-- PLACEHOLDER: models-placeholder -->" =
      "<!-- PLACEHOLDER: models-placeholder -->" :=
  ⟨rfl, inject_scraped_missing_url.1 (fun s => s) [] "https://docs.venice.ai/models"
    "<!-- PLACEHOLDER: models-placeholder -->" rfl⟩

/-- C8 counterexample: with no scraped match for the URL, the sentinel is
left in the output unprocessed and the fallback string
`[Dynamic content — see <url>]` is not substituted. -/
theorem inject_missing_url_unreplaced_cex :
    injectScrapedContent (fun s => s) [] "https://docs.venice.ai/models"
        "Intro <!-- PLACEHOLDER: models-placeholder --> outro" =
      "Intro <!-- PLACEHOLDER: models-placeholder --> outro" ∧
    pyIn "<!-- PLACEHOLDER: "
      (injectScrapedContent (fun s => s) [] "https://docs.venice.ai/models"
        "Intro <!-- PLACEHOLDER: models-placeholder --> outro") = true ∧
    pyIn "[Dynamic content"
      (injectScrapedContent (fun s => s) [] "https://docs.venice.ai/models"
        "Intro <!-- PLACEHOLDER: models-placeholder --> outro") = false := by
  decide

/-- C9 (code bug): `write_changelog` on any non-empty report list raises
`AttributeError` while formatting the markdown — `_format_report` reads
`report.new_snapshot_time`, a field the `DiffReport` model does not have —
so the JSON changelog is never written and the write-then-read round trip
cannot return the report list. -/
theorem write_changelog_attribute_error :
    writeChangelog [r9] =
      Except.error
        "AttributeError: 'DiffReport' object has no attribute 'new_snapshot_time'" := by
  rfl

/-- C10 (confirmed): `deduplicate_similar` only drops whole pages — every
surviving binding occurs, path and content unchanged, in the input, and
the surviving key set is a subset of the input key set. -/
theorem dedup_similar_subset (thr : ℚ) (pages : List (String × String)) :
    (∀ pc ∈ dedupSimilar thr pages, pc ∈ pages) ∧
    (∀ p ∈ (dedupSimilar thr pages).map Prod.fst, p ∈ pages.map Prod.fst) := by
  have hs : List.Sublist (dedupSimilar thr pages) pages :=
    List.Sublist.trans (List.filter_sublist _) (dedupExactGo_sublist pages [])
  exact ⟨fun pc h => hs.subset h, fun p h => (hs.map Prod.fst).subset h⟩

/-- C10 witness. -/
theorem dedup_similar_subset_witness :
    (("a", "alpha") ∈ dedupSimilar (mkRat 4 5) [("a", "alpha")]) ∧
    (("a", "alpha") ∈ ([("a", "alpha")] : List (String × String))) ∧
    ("a" ∈ ([("a", "alpha")] : List (String × String)).map Prod.fst) :=
  ⟨by decide,
    (dedup_similar_subset (mkRat 4 5) [("a", "alpha")]).1 ("a", "alpha") (by decide),
    (dedup_similar_subset (mkRat 4 5) [("a", "alpha")]).2 "a" (by decide)⟩

/-- C3 (confirmed): every change entry produced by `diff_snapshots` has a
path in the union of the two key sets; an added entry's path is absent
from the old manifest, a removed entry's path is absent from the new
manifest, and a modified entry's path is in both with differing hashes. -/
theorem diff_change_entries_sound (now : String) (oldS newS : KBSnapshot)
    (e : ChangeEntry)
    (he : e ∈ (diffSnapshots now oldS newS).getAllChanges) :
    (e.path ∈ oldS.page_manifest.map Prod.fst ∨
      e.path ∈ newS.page_manifest.map Prod.fst) ∧
    (e.change_type = ChangeType.added →
      e.path ∉ oldS.page_manifest.map Prod.fst) ∧
    (e.change_type = ChangeType.removed →
      e.path ∉ newS.page_manifest.map Prod.fst) ∧
    (e.change_type = ChangeType.modified →
      e.path ∈ oldS.page_manifest.map Prod.fst ∧
      e.path ∈ newS.page_manifest.map Prod.fst ∧
      (manifestGet oldS.page_manifest e.path).hash ≠
        (manifestGet newS.page_manifest e.path).hash) := by
  have he' := (getAllChanges_perm now oldS newS).mem_iff.mp he
  rcases mem_diffChanges he' with ⟨p, hp, rfl⟩ | ⟨p, hp, rfl⟩ | ⟨p, hp, hsome⟩
  · obtain ⟨hn, hno⟩ := List.mem_filter.mp hp
    have hno' := of_decide_eq_true hno
    refine ⟨Or.inr hn, fun _ => hno', fun hct => ?_, fun hct => ?_⟩
    · simp [addedEntry] at hct
    · simp [addedEntry] at hct
  · obtain ⟨ho, hno⟩ := List.mem_filter.mp hp
    have hno' := of_decide_eq_true hno
    refine ⟨Or.inl ho, fun hct => ?_, fun _ => hno', fun hct => ?_⟩
    · simp [removedEntry] at hct
    · simp [removedEntry] at hct
  · obtain ⟨hct, hpath, hhash⟩ := modifiedEntry?_eq_some hsome
    obtain ⟨ho, hn⟩ := List.mem_filter.mp hp
    have hn' := of_decide_eq_true hn
    rw [hpath]
    refine ⟨Or.inl ho, fun hadded => ?_, fun hremoved => ?_,
      fun _ => ⟨ho, hn', hhash⟩⟩
    · rw [hct] at hadded
      exact absurd hadded (by decide)
    · rw [hct] at hremoved
      exact absurd hremoved (by decide)

/-- C3 witness. -/
theorem diff_change_entries_sound_witness :
    (addedEntry s3new.page_manifest "p1.md" ∈
      (diffSnapshots "t" s3old s3new).getAllChanges) ∧
    ((addedEntry s3new.page_manifest "p1.md").path ∈
        s3old.page_manifest.map Prod.fst ∨
      (addedEntry s3new.page_manifest "p1.md").path ∈
        s3new.page_manifest.map Prod.fst) :=
  ⟨by decide,
    (diff_change_entries_sound "t" s3old s3new
      (addedEntry s3new.page_manifest "p1.md") (by decide)).1⟩

/-- C4 (amended): `classify_severity` does upgrade to breaking whenever
the lower-cased diff text contains a breaking signal; but `diff_snapshots`
always classifies modified pages with an *empty* diff preview (content is
never loaded), so in scenario S4 — `api-reference/endpoint/chat/completions.md`
changes hash and its new content contains "required parameter `model`
added" — the single modified entry carries severity `important` (the path
rule), not `breaking`. -/
theorem severity_upgrade_signals :
    (∀ (path : String) (ct : ChangeType) (dt : String),
       BREAKING_SIGNALS.any (fun s => pyIn s (pyLower dt)) = true →
       classifySeverity path ct dt = SeverityLevel.breaking) ∧
    ((diffSnapshots "2026-01-02T00:00:01" s4old s4new).getAllChanges.map
        (fun e => (e.change_type, e.path, e.severity)) =
      [(ChangeType.modified, "api-reference/endpoint/chat/completions.md",
        SeverityLevel.important)]) := by
  constructor
  · intro path ct dt h
    unfold classifySeverity
    rw [if_pos h]
  · decide

/-- C4 witness. -/
theorem severity_upgrade_signals_witness :
    (BREAKING_SIGNALS.any
        (fun s => pyIn s (pyLower "Required Parameter `model` added")) = true) ∧
    classifySeverity "guides/getting-started.md" ChangeType.modified
      "Required Parameter `model` added" = SeverityLevel.breaking :=
  ⟨by decide,
    severity_upgrade_signals.1 "guides/getting-started.md" ChangeType.modified
      "Required Parameter `model` added" (by decide)⟩

/-- C4 counterexample: in scenario S4 the emitted modified entry has
severity `important`, not `breaking`. -/
theorem s4_not_breaking_cex :
    ((diffSnapshots "t" s4old s4new).getAllChanges.map
        (fun e => (e.change_type, e.path, e.severity)) =
      [(ChangeType.modified, "api-reference/endpoint/chat/completions.md",
        SeverityLevel.important)]) ∧
    SeverityLevel.important ≠ SeverityLevel.breaking := by
  constructor
  · decide
  · decide

/-- C5 (amended): for every page whose path contains
`api-reference/endpoint/` present in the old snapshot and absent in the
new one, `diff_snapshots` emits exactly one removed entry — but its
severity is `important` (the first matching path rule fires with an empty
diff text; removal does not upgrade it to `breaking`). -/
theorem removed_endpoint_important (now : String) (oldS newS : KBSnapshot)
    (path : String)
    (hnd : (oldS.page_manifest.map Prod.fst).Nodup)
    (hpath : pyIn "api-reference/endpoint/" path = true)
    (hin : path ∈ oldS.page_manifest.map Prod.fst)
    (hout : path ∉ newS.page_manifest.map Prod.fst) :
    ((diffSnapshots now oldS newS).getAllChanges.filter
        (fun e => decide (e.change_type = ChangeType.removed ∧ e.path = path))).length = 1 ∧
    ∀ e ∈ (diffSnapshots now oldS newS).getAllChanges,
      e.change_type = ChangeType.removed → e.path = path →
        e.severity = SeverityLevel.important := by
  have hperm := getAllChanges_perm now oldS newS
  constructor
  · rw [← List.countP_eq_length_filter]
    rw [hperm.countP_eq]
    unfold diffChanges
    rw [List.countP_append, List.countP_append]
    have hadd : ((addedPathsOf oldS newS).map (addedEntry newS.page_manifest)).countP
        (fun e => decide (e.change_type = ChangeType.removed ∧ e.path = path)) = 0 := by
      rw [List.countP_eq_zero]
      intro e hmem
      obtain ⟨q, _, rfl⟩ := List.mem_map.mp hmem
      simp [addedEntry]
    have hmod : ((commonPathsOf oldS newS).filterMap
        (modifiedEntry? oldS.page_manifest newS.page_manifest)).countP
        (fun e => decide (e.change_type = ChangeType.removed ∧ e.path = path)) = 0 := by
      rw [List.countP_eq_zero]
      intro e hmem
      obtain ⟨q, _, hsome⟩ := List.mem_filterMap.mp hmem
      have hct := (modifiedEntry?_eq_some hsome).1
      simp [hct]
    have hrem : ((removedPathsOf oldS newS).map (removedEntry oldS.page_manifest)).countP
        (fun e => decide (e.change_type = ChangeType.removed ∧ e.path = path)) = 1 := by
      rw [List.countP_map]
      have hfun : ((fun e => decide (e.change_type = ChangeType.removed ∧ e.path = path)) ∘
          removedEntry oldS.page_manifest) = fun q => decide (q = path) := by
        funext q
        simp [removedEntry, Function.comp]
      rw [hfun]
      refine countP_eq_one_of_nodup path _ (hnd.filter _) ?_
      exact List.mem_filter.mpr ⟨hin, by simpa using hout⟩
    rw [hadd, hrem, hmod]
  · intro e he hct hpath'
    have he' := hperm.mem_iff.mp he
    rcases mem_diffChanges he' with ⟨q, _, rfl⟩ | ⟨q, _, rfl⟩ | ⟨q, _, hsome⟩
    · simp [addedEntry] at hct
    · have hq' : q = path := hpath'
      subst hq'
      exact classify_endpoint_rule q ChangeType.removed hpath
    · have hmod := (modifiedEntry?_eq_some hsome).1
      rw [hmod] at hct
      exact absurd hct (by decide)

/-- C5 witness. -/
theorem removed_endpoint_important_witness :
    ((s6old.page_manifest.map Prod.fst).Nodup ∧
      pyIn "api-reference/endpoint/" "api-reference/endpoint/audio/speech.md" = true ∧
      "api-reference/endpoint/audio/speech.md" ∈ s6old.page_manifest.map Prod.fst ∧
      "api-reference/endpoint/audio/speech.md" ∉ s6new.page_manifest.map Prod.fst) ∧
    (((diffSnapshots "t" s6old s6new).getAllChanges.filter
        (fun e => decide (e.change_type = ChangeType.removed ∧
          e.path = "api-reference/endpoint/audio/speech.md"))).length = 1 ∧
      ∀ e ∈ (diffSnapshots "t" s6old s6new).getAllChanges,
        e.change_type = ChangeType.removed →
        e.path = "api-reference/endpoint/audio/speech.md" →
          e.severity = SeverityLevel.important) :=
  ⟨⟨by decide, by decide, by decide, by decide⟩,
    removed_endpoint_important "t" s6old s6new
      "api-reference/endpoint/audio/speech.md"
      (by decide) (by decide) (by decide) (by decide)⟩

/-- C5 counterexample: in scenario S6 the removed-endpoint entry has
severity `important`, not `breaking`. -/
theorem s6_removed_severity_cex :
    ((diffSnapshots "t" s6old s6new).getAllChanges.map
        (fun e => (e.change_type, e.path, e.severity)) =
      [(ChangeType.removed, "api-reference/endpoint/audio/speech.md",
        SeverityLevel.important)]) ∧
    SeverityLevel.important ≠ SeverityLevel.breaking := by
  constructor
  · decide
  · decide

end VeniceKB

/-! ## Sanity anchors

The SHA-256 embedding matches the NIST test vectors, and the writer
produces the documented file shape on a concrete page. -/

example : SHA256.sha256hex "abc" =
    "ba7816bf8f01cfea414140de5dae2223b00361a396177a9cb410ff61f20015ad" := by
  decide

example : SHA256.sha256hex "" =
    "e3b0c44298fc1c149afbf4c8996fb92427ae41e4649b934ca495991b7852b855" := by
  decide

example : VeniceKB.writePage "2026-01-01T00:00:01" "# Hi\nBody." [] [] =
    "---\ntitle: Hi\nsource: venice-kb-collector\nlast_updated: '2026-01-01T00:00:01'\ncontent_hash: " ++
      SHA256.sha256hex "# Hi\nBody." ++ "\ntoken_count: 2\ntags: []\n---\n\n# Hi\nBody." := by
  decide

example : VeniceKB.pathToSection "api-reference/endpoint/chat/completions.md" =
    "Api Reference > Endpoint > Chat > Completions" := by decide
